import Mathlib

/-!
# Verification of the SuperAgent-n8n Discord relay services

This file gives a shallow embedding, in Lean 4, of the message-processing
logic of the SuperAgent-n8n repository, and proves (or refutes) the stated
specification properties about it.

The embedded components, with their Python sources:

* the legacy API server (`legacy/discord_api_server.py`): message storage,
  conversation-history fetch, context assembly with dedup guard and
  sliding-window truncation;
* the combined service (`discord_combined_service.py`): same storage and
  history queries, context assembly *without* a dedup guard;
* the MCP bot (`src/discord_bot_with_mcp.py`): message storage, history
  fetch, tool round-trip handling, fallback formatting, paragraph chunking;
* the plain bot (`src/discord_bot.py`): fixed-size response slicing and the
  trigger predicate;
* the API server (`src/api_server.py`): plain message insertion, tool-result
  serialization, and the rule that no tool schemas are offered on follow-up
  rounds;
* the MCP bot variant (`src/mcp_discord_bot.py`): the `should_respond`
  trigger predicate.

Modelling conventions:

* Python strings are modelled as `List Char` (`PyStr`) wherever the code
  inspects their characters (splitting, substring search, slicing), and as
  Lean `String` where they are only compared or concatenated.
* Database tables are modelled as Lean lists kept in insertion order.
  Timestamps (`created_at` / `timestamp`) are strictly increasing along the
  list, so `ORDER BY created_at DESC` is list reversal; the columns
  themselves are therefore not carried in the row structures.
* Network and Discord I/O is modelled by oracle functions passed as
  parameters (the LLM gateway and the tool executors).
-/

namespace SuperAgent

/-! ## Python string primitives -/

/-- Python strings as sequences of code points. -/
abbrev PyStr := List Char

/-- Python `str.lower()` (adequate for the ASCII trigger words used here). -/
def pyLower (s : PyStr) : PyStr := s.map Char.toLower

/-- Python `needle in hay` membership test: contiguous substring search. -/
def pyContains (needle : PyStr) : PyStr → Bool
  | [] => needle.isEmpty
  | c :: rest => needle.isPrefixOf (c :: rest) || pyContains needle rest

/-- The characters removed by Python `str.strip()`. -/
def pyIsSpace (c : Char) : Bool :=
  c = ' ' || c = '\t' || c = '\n' || c = '\r' || c = '\x0b' || c = '\x0c'

/-- Python `str.strip()`: drop whitespace from both ends. -/
def pyStrip (s : PyStr) : PyStr :=
  ((s.dropWhile pyIsSpace).reverse.dropWhile pyIsSpace).reverse

/-- Python `text.split("\n\n")`: split on each non-overlapping occurrence of
the two-newline separator, scanning left to right.  `acc` holds the current
piece, reversed. -/
def pySplitNlNlAux : PyStr → PyStr → List PyStr
  | [], acc => [acc.reverse]
  | '\n' :: '\n' :: rest, acc => acc.reverse :: pySplitNlNlAux rest []
  | c :: rest, acc => pySplitNlNlAux rest (c :: acc)

/-- Python `text.split("\n\n")`. -/
def pySplitNlNl (s : PyStr) : List PyStr := pySplitNlNlAux s []

/-- Python `s[:n] + ('...' if len(s) > n else '')`, used by the fallback
formatter to truncate message previews. -/
def pyPreview (s : String) (n : Nat) : String :=
  if n < s.length then (s.toList.take n).asString ++ "..." else s

/-! ## The `messages` table (legacy API server and combined service)

`legacy/discord_api_server.py` and `discord_combined_service.py` share the
same schema and the same SQL, so the store operations are embedded once.
A row of the `messages` table; `discord_message_id` is NULL for rows written
by `store_bot_response`. -/

structure StoredRow where
  discord_message_id : Option Nat
  user_id : Nat
  channelId : String
  content : String
  message_type : String
  agent_name : Option String
deriving DecidableEq, Repr

/-- Function `store_user_message` (`legacy/discord_api_server.py` lines 57-66 and
`discord_combined_service.py` lines 198-207): `INSERT ... ON CONFLICT
(discord_message_id) DO NOTHING`.  A conflict arises only on an equal
non-null id. -/
def store_user_message (store : List StoredRow) (message_id user_id : Nat)
    (content : String) (channelId : String) : List StoredRow :=
  if store.any (fun r => r.discord_message_id = some message_id) then store
  else store ++ [⟨some message_id, user_id, channelId, content, "user", none⟩]

/-- Function `store_bot_response` (`legacy/discord_api_server.py` lines 82-90):
plain INSERT with no `discord_message_id`. -/
def store_bot_response (store : List StoredRow) (user_id : Nat)
    (content : String) (channelId : String) : List StoredRow :=
  store ++ [⟨none, user_id, channelId, content, "assistant", some "Grok4Agent"⟩]

/-- The `WHERE` clause of `get_conversation_history`: the stored rows of one
(user, channel) pair, in chronological order. -/
def pairPriors (store : List StoredRow) (user_id : Nat)
    (channel_id : String) : List StoredRow :=
  store.filter fun r => r.user_id = user_id && r.channelId = channel_id

/-- Function `get_conversation_history` (`legacy/discord_api_server.py` lines 68-80
and `discord_combined_service.py` lines 209-221): rows of the (user,
channel) pair, newest first (`ORDER BY created_at DESC`), at most `limit`
of them. -/
def get_conversation_history (store : List StoredRow) (user_id : Nat)
    (channel_id : String) (limit : Nat) : List StoredRow :=
  ((pairPriors store user_id channel_id).reverse).take limit

/-! ## Context assembly -/

/-- One entry of the context list sent to the LLM. -/
structure CtxMsg where
  role : String
  content : String
deriving DecidableEq, Repr

/-- The role tagging of one stored row (`legacy/discord_api_server.py`
lines 211-215). -/
def legacyFormatRow (msg : StoredRow) : CtxMsg :=
  ⟨if msg.message_type = "user" then "user" else "assistant", msg.content⟩

/-- The history loop shared by both assemblers (`legacy/discord_api_server.py`
lines 209-215, `discord_combined_service.py` lines 131-137): reverse the
newest-first rows to chronological order and tag the role from
`message_type`. -/
def historyToCtx (history : List StoredRow) : List CtxMsg :=
  history.reverse.map legacyFormatRow

/-- The test `conversation_messages[-1]['content'] == c`, the dedup comparison of the
legacy assembler. -/
def lastContentIs (msgs : List CtxMsg) (c : String) : Bool :=
  match msgs.getLast? with
  | some m => m.content = c
  | none => false

/-- The dedup-guarded append of the legacy assembler
(`legacy/discord_api_server.py` lines 217-223): append the current user turn
unless the list is nonempty and already ends with the same content. -/
def appendCurrentLegacy (msgs : List CtxMsg) (current : String) : List CtxMsg :=
  if msgs.isEmpty || !lastContentIs msgs current then msgs ++ [⟨"user", current⟩]
  else msgs

/-- The sliding-window truncation (`legacy/discord_api_server.py` lines
225-228 and `discord_combined_service.py` lines 145-147): if more than 25
messages, keep the first (system) message and the last 24. -/
def truncateContext (msgs : List CtxMsg) : List CtxMsg :=
  if 25 < msgs.length then msgs.take 1 ++ msgs.drop (msgs.length - 24) else msgs

/-- The legacy assembler (`legacy/discord_api_server.py` lines 197-228),
parameterized by the system-prompt text.  `history` is as returned by
`get_conversation_history` (newest first). -/
def buildContextLegacy (systemContent : String) (history : List StoredRow)
    (current : String) : List CtxMsg :=
  truncateContext
    (appendCurrentLegacy (⟨"system", systemContent⟩ :: historyToCtx history) current)

/-- The combined-service assembler (`discord_combined_service.py` lines
126-147): same as the legacy one except that the current message is appended
unconditionally (no dedup guard). -/
def buildContextCombined (systemContent : String) (history : List StoredRow)
    (current : String) : List CtxMsg :=
  truncateContext
    ((⟨"system", systemContent⟩ :: historyToCtx history) ++ [⟨"user", current⟩])

/-- An inbound Discord message as consumed by the processing endpoints.
`content` is the mention-stripped `clean_content` (the regex cleanup is not
modelled). -/
structure InboundMsg where
  id : Nat
  user_id : Nat
  channel_id : String
  content : String
  username : String
  reply_to : Option Nat
deriving DecidableEq, Repr

/-- Result of one legacy/combined processing step, up to the LLM call. -/
structure ProcessResult where
  historyUsed : List StoredRow
  context : List CtxMsg
  newStore : List StoredRow
deriving Repr

/-- The storage/assembly prefix of `process_discord_message`
(`legacy/discord_api_server.py` lines 182-228): fetch history *before*
persisting the current message, then build the context. -/
def processLegacy (systemContent : String) (store : List StoredRow)
    (msg : InboundMsg) : ProcessResult :=
  let history := get_conversation_history store msg.user_id msg.channel_id 15
  let store2 := store_user_message store msg.id msg.user_id msg.content msg.channel_id
  let ctx := buildContextLegacy systemContent history msg.content
  ⟨history, ctx, store2⟩

/-- The storage/assembly prefix of `process_message_with_ai`
(`discord_combined_service.py` lines 111-147): same order of operations as
the legacy server, but with the unguarded append. -/
def processCombined (systemContent : String) (store : List StoredRow)
    (msg : InboundMsg) : ProcessResult :=
  let history := get_conversation_history store msg.user_id msg.channel_id 15
  let store2 := store_user_message store msg.id msg.user_id msg.content msg.channel_id
  let ctx := buildContextCombined systemContent history msg.content
  ⟨history, ctx, store2⟩

/-! ## The `discord_messages` table (MCP bot and API server)

`src/discord_bot_with_mcp.py` and `src/api_server.py` write to the
`discord_messages` table.  No unique constraint on `message_id` is declared
anywhere in the repository, and both writers use a plain `INSERT`. -/

structure DiscordMessageRow where
  bot_name : Option String
  channel_id : String
  guild_id : Option String
  user_id : Option String
  username : String
  message_content : String
  message_id : Option String
deriving DecidableEq, Repr

/-- Function `MCPDiscordBot.store_message` (`src/discord_bot_with_mcp.py` lines
79-100) and `DatabaseManager.store_message` (`src/api_server.py` lines
205-226): a plain `INSERT` appending one row. -/
def insertDiscordMessage (store : List DiscordMessageRow)
    (row : DiscordMessageRow) : List DiscordMessageRow :=
  store ++ [row]

/-- The role/content formatting applied to each fetched row by
`MCPDiscordBot.get_conversation_history` (`src/discord_bot_with_mcp.py`
lines 117-126). -/
def mcpFormatRow (r : DiscordMessageRow) : CtxMsg :=
  ⟨if r.bot_name.isSome then "assistant" else "user",
   r.username ++ ": " ++ r.message_content⟩

/-- Function `MCPDiscordBot.get_conversation_history` (`src/discord_bot_with_mcp.py`
lines 102-130): newest `limit` rows of the channel, reversed to
chronological order and formatted. -/
def mcpGetConversationHistory (store : List DiscordMessageRow)
    (channel_id : String) (limit : Nat) : List CtxMsg :=
  ((((store.filter fun r => r.channel_id = channel_id).reverse).take
      limit).reverse).map mcpFormatRow

/-- The storage/fetch prefix of `MCPDiscordBot.process_with_tools`
(`src/discord_bot_with_mcp.py` lines 336-342): the inbound message is stored
*first* and the history is fetched afterwards, from the updated store. -/
def mcpProcessStoreAndFetch (store : List DiscordMessageRow)
    (row : DiscordMessageRow) : List CtxMsg × List DiscordMessageRow :=
  let store2 := insertDiscordMessage store row
  let history := mcpGetConversationHistory store2 row.channel_id 30
  (history, store2)

/-! ## Tool payloads and the fallback formatter

The five Discord tools of `src/discord_bot_with_mcp.py` return dictionaries
of fixed shapes (`{"success": True, ...}`) or `{"error": ...}`.  Each shape
is one constructor; the formatter's `result.get('success')` truthiness test
is `ToolPayload.successFlag`. -/

structure ServerData where
  name : String
  id : String
  member_count : Nat
  channel_count : Nat
  created_at : String
  owner : String
deriving DecidableEq, Repr

structure ChannelData where
  id : String
  name : String
  kind : String
  category : Option String
deriving DecidableEq, Repr

structure HistMsgData where
  id : String
  author : String
  content : String
  timestamp : String
deriving DecidableEq, Repr

structure UserData where
  id : String
  username : String
  status : String
  activity : Option String
deriving DecidableEq, Repr

structure SearchMsgData where
  channel : String
  author : String
  content : String
  timestamp : String
deriving DecidableEq, Repr

inductive ToolPayload where
  | serverInfo (success : Bool) (server : ServerData)
  | channelList (success : Bool) (channels : List ChannelData) (count : Nat)
  | channelHistory (success : Bool) (messages : List HistMsgData) (channel : String)
  | onlineUsers (success : Bool) (users : List UserData) (count : Nat)
  | searchResults (success : Bool) (results : List SearchMsgData) (count : Nat)
      (query : String)
  | error (message : String)
deriving DecidableEq, Repr

/-- Truthiness of `result.get('success')` (the `error` dict has no such key). -/
def ToolPayload.successFlag : ToolPayload → Bool
  | .serverInfo success _ => success
  | .channelList success _ _ => success
  | .channelHistory success _ _ => success
  | .onlineUsers success _ _ => success
  | .searchResults success _ _ _ => success
  | .error _ => false

/-- A `{tool_name, result}` pair collected during a tool round trip. -/
structure ToolResult where
  tool_name : String
  result : ToolPayload
deriving DecidableEq, Repr

/-- The status emoji of the online-users section
(`src/discord_bot_with_mcp.py` line 278). -/
def statusEmoji (status : String) : String :=
  if status = "online" then "🟢" else if status = "idle" then "🟡" else "🔴"

/-- One branch of the `elif` chain of
`MCPDiscordBot.format_tool_results_fallback`
(`src/discord_bot_with_mcp.py` lines 246-287): the section contributed by a
single tool result, empty when the name is unrecognized or the result
carries no truthy `success`. -/
def formatSection (tr : ToolResult) : String :=
  if tr.tool_name = "get_server_info" then
    match tr.result with
    | .serverInfo true s =>
        "📊 **Server Information:**\n" ++
        "• Server: **" ++ s.name ++ "**\n" ++
        "• Members: " ++ toString s.member_count ++ "\n" ++
        "• Channels: " ++ toString s.channel_count ++ "\n" ++
        "• Owner: " ++ s.owner ++ "\n\n"
    | _ => ""
  else if tr.tool_name = "list_channels" then
    match tr.result with
    | .channelList true channels count =>
        "📋 **Available Channels (" ++ toString count ++ "):**\n" ++
        String.join ((channels.take 10).map fun c =>
          "• #" ++ c.name ++ " (" ++ c.kind ++ ")\n") ++
        (if 10 < channels.length then
          "• ... and " ++ toString (channels.length - 10) ++ " more channels\n"
         else "") ++ "\n"
    | _ => ""
  else if tr.tool_name = "get_channel_history" then
    match tr.result with
    | .channelHistory true messages channel =>
        "💬 **Recent Messages in #" ++ channel ++ " (" ++
        toString messages.length ++ " messages):**\n" ++
        String.join ((messages.take 5).map fun m =>
          "• " ++ m.author ++ ": " ++ pyPreview m.content 100 ++ "\n") ++ "\n"
    | _ => ""
  else if tr.tool_name = "get_online_users" then
    match tr.result with
    | .onlineUsers true users count =>
        "👥 **Online Users (" ++ toString count ++ "):**\n" ++
        String.join ((users.take 10).map fun u =>
          "• " ++ statusEmoji u.status ++ " " ++ u.username ++ "\n") ++ "\n"
    | _ => ""
  else if tr.tool_name = "search_messages" then
    match tr.result with
    | .searchResults true results count query =>
        "🔍 **Search Results for '" ++ query ++ "' (" ++ toString count ++
        " found):**\n" ++
        String.join ((results.take 5).map fun m =>
          "• **#" ++ m.channel ++ "** - " ++ m.author ++ ": " ++
          pyPreview m.content 150 ++ "\n") ++ "\n"
    | _ => ""
  else ""

/-- Function `MCPDiscordBot.format_tool_results_fallback`
(`src/discord_bot_with_mcp.py` lines 242-292): accumulate one section per
tool result onto the preamble; if no result has a truthy `success`, the
whole response is replaced by the generic failure sentence.  The
`original_question` argument is unused, as in the source. -/
def format_tool_results_fallback (tool_results : List ToolResult)
    (original_question : String) : String :=
  let response := tool_results.foldl (fun acc tr => acc ++ formatSection tr)
    "Here's what I found regarding your question:\n\n"
  if tool_results.any (fun tr => tr.result.successFlag) then response
  else "I encountered some issues retrieving the information you requested. Please try again later."

/-! ## The tool round trip -/

/-- One tool call requested by the model, as relayed by the API server
(`src/api_server.py` lines 716-722).  The JSON decoding of string-encoded
arguments (`src/discord_bot_with_mcp.py` lines 417-423) is not modelled:
arguments arrive already parsed. -/
structure ToolCall where
  tool : String
  arguments : List (String × String)
deriving DecidableEq, Repr

/-- The keys of `self.discord_tools` (`src/discord_bot_with_mcp.py` lines
67-73). -/
def discordToolNames : List String :=
  ["list_channels", "get_channel_history", "get_server_info",
   "get_online_users", "search_messages"]

/-- The execution loop of `MCPDiscordBot.process_with_tools`
(`src/discord_bot_with_mcp.py` lines 411-431): resolve the requested calls
in list order, executing each one whose name is a registered Discord tool
and collecting `{tool_name, result}` pairs; unregistered names are skipped.
The Discord side effects of a tool are abstracted into the oracle `exec`. -/
def runToolCalls (exec : String → List (String × String) → ToolPayload)
    (calls : List ToolCall) : List ToolResult :=
  calls.foldl
    (fun acc c =>
      if discordToolNames.contains c.tool then
        acc ++ [⟨c.tool, exec c.tool c.arguments⟩]
      else acc)
    []

/-- The fields of the webhook payload that the round-trip logic inspects
(`src/discord_bot_with_mcp.py` lines 379-394 and `src/api_server.py` lines
561-597). -/
structure LLMRequest where
  message_content : String
  tool_results : List ToolResult
  follow_up_request : Bool
  tools_available : Bool
deriving DecidableEq, Repr

/-- The follow-up payload built after tool execution
(`src/discord_bot_with_mcp.py` lines 435-440): a copy of the base payload
with the rephrased question, the collected results, and the
`follow_up_request` flag. -/
def followUpRequest (base : LLMRequest) (question : String)
    (results : List ToolResult) : LLMRequest :=
  { base with
    message_content :=
      "Based on the tool results, please provide a natural response to the user's question: "
        ++ question
    tool_results := results
    follow_up_request := true }

/-- The API server's decision to offer tool schemas (`src/api_server.py`
lines 596-597): only when the webhook advertises tools *and* is not a
follow-up request. -/
def toolsOffered (req : LLMRequest) : Bool :=
  req.tools_available && !req.follow_up_request

/-- The serialization of tool results into the follow-up prompt
(`src/api_server.py` lines 565-567), with `json.dumps` abstracted into the
oracle `dumps`. -/
def buildToolContext (dumps : ToolPayload → String)
    (trs : List ToolResult) : String :=
  trs.foldl
    (fun acc tr => acc ++ ("- " ++ tr.tool_name ++ ": " ++ dumps tr.result ++ "\n"))
    "Tool execution results:\n"

/-- Outcome of one POST to the API server, as seen by the bot:
HTTP 200 with a response text and optional tool calls, or any other
status. -/
inductive LLMOutcome where
  | ok (response : String) (tool_calls : Option (List ToolCall))
  | httpError
deriving DecidableEq, Repr

/-- The response-determination logic of `MCPDiscordBot.process_with_tools`
(`src/discord_bot_with_mcp.py` lines 396-455), with the API server
abstracted into the oracle `llm`.  Returns the final answer text together
with the list of LLM requests issued, or `none` when the first call already
fails (the bot then sends a canned apology, line 500).  The subsequent
empty-response check and self-mention scrub (lines 457-462) belong to the
dispatcher and are outside this function. -/
def processWithTools (llm : LLMRequest → LLMOutcome)
    (exec : String → List (String × String) → ToolPayload)
    (base : LLMRequest) (question : String) :
    Option (String × List LLMRequest) :=
  match llm base with
  | .httpError => none
  | .ok response toolCallsOpt =>
    match toolCallsOpt with
    | none => some (response, [base])
    | some calls =>
      let tool_results := runToolCalls exec calls
      if tool_results.isEmpty then some (response, [base])
      else
        let fu := followUpRequest base question tool_results
        match llm fu with
        | .ok r _ => some (r, [base, fu])
        | .httpError =>
          some (format_tool_results_fallback tool_results question, [base, fu])

/-! ## Response chunking -/

/-- The literal separator `"\n\n"`. -/
def nlnl : PyStr := ['\n', '\n']

/-- One step of the greedy paragraph packer
(`src/discord_bot_with_mcp.py` lines 470-475): flush the current chunk when
adding the paragraph would exceed 1800 characters, then accumulate the
paragraph followed by `"\n\n"`. -/
def addParagraph (st : List PyStr × PyStr) (para : PyStr) :
    List PyStr × PyStr :=
  if 1800 < (st.2 ++ para).length then
    if st.2.isEmpty then (st.1, st.2 ++ para ++ nlnl)
    else (st.1 ++ [pyStrip st.2], [] ++ para ++ nlnl)
  else (st.1, st.2 ++ para ++ nlnl)

/-- The chunk list built from a paragraph list
(`src/discord_bot_with_mcp.py` lines 467-478), including the final flush of
a non-whitespace remainder. -/
def buildChunks (paras : List PyStr) : List PyStr :=
  if (pyStrip (paras.foldl addParagraph ([], [])).2).isEmpty then
    (paras.foldl addParagraph ([], [])).1
  else
    (paras.foldl addParagraph ([], [])).1 ++
      [pyStrip (paras.foldl addParagraph ([], [])).2]

/-- The chunk list (before continuation markers) produced for an oversized
text by `MCPDiscordBot.process_with_tools` (`src/discord_bot_with_mcp.py`
lines 467-478): split on `"\n\n"`, then pack greedily. -/
def mcpChunks (text : PyStr) : List PyStr :=
  buildChunks (pySplitNlNl text)

/-- The continuation marker prefixed to every chunk after the first
(`src/discord_bot_with_mcp.py` line 482). -/
def contMarker : PyStr := "*...continued*\n\n".toList

/-- The chunked send of `MCPDiscordBot.process_with_tools`
(`src/discord_bot_with_mcp.py` lines 464-494): texts over 1900 characters
are split on `"\n\n"`, greedily packed, marker-prefixed after the first
chunk, and whitespace-only chunks are not sent; shorter texts are sent
as-is. -/
def mcpSendChunks (text : PyStr) : List PyStr :=
  if 1900 < text.length then
    (((mcpChunks text).enum.map fun ic =>
        if 0 < ic.1 then contMarker ++ ic.2 else ic.2).filter fun c =>
      !(pyStrip c).isEmpty)
  else [text]

/-- The fixed-slice fuel loop behind `BotForgeBot.process_message`
(`src/discord_bot.py` line 143): `[text[i:i+1900] for i in
range(0, len(text), 1900)]`.  The fuel argument only bounds the recursion;
`sliceChunks` passes `text.length`, which always suffices. -/
def sliceChunksAux : Nat → PyStr → List PyStr
  | _, [] => []
  | 0, s => [s]
  | fuel + 1, s => s.take 1900 :: sliceChunksAux fuel (s.drop 1900)

/-- The slice comprehension of `BotForgeBot.process_message`
(`src/discord_bot.py` line 143). -/
def sliceChunks (text : PyStr) : List PyStr :=
  sliceChunksAux text.length text

/-- The continuation marker of the plain bot (`src/discord_bot.py` line
146). -/
def plainContMarker : PyStr := "(continued...)\n".toList

/-- The chunked send of `BotForgeBot.process_message` (`src/discord_bot.py`
lines 141-149): texts over 2000 characters are sliced at fixed 1900-character
offsets, with the marker prefixed to every chunk after the first. -/
def plainSendChunks (text : PyStr) : List PyStr :=
  if 2000 < text.length then
    (sliceChunks text).enum.map fun ic =>
      if 0 < ic.1 then plainContMarker ++ ic.2 else ic.2
  else [text]

/-! ## Trigger predicates -/

/-- The message-event fields consulted by
`SuperAgentBot.handle_discord_message` (`discord_combined_service.py` lines
59-72). -/
structure CombinedEvent where
  author_id : Nat
  self_id : Nat
  mention_ids : List Nat
  content : PyStr
  role_mention_ids : List Nat
  has_reference : Bool
deriving DecidableEq, Repr

/-- The respond decision of `SuperAgentBot.handle_discord_message`
(`discord_combined_service.py` lines 62-72): not a self-message, and the bot
is mentioned, or `'grok'` occurs in the lowercased content, or a role is
mentioned (`message.role_mentions` nonempty or `'<@&'` occurs in the raw
content). -/
def combinedShouldRespond (ev : CombinedEvent) : Bool :=
  if ev.author_id = ev.self_id then false
  else
    let bot_mentioned := ev.mention_ids.any fun i => i = ev.self_id
    let contains_grok := pyContains "grok".toList (pyLower ev.content)
    let role_mentioned :=
      !ev.role_mention_ids.isEmpty || pyContains "<@&".toList ev.content
    bot_mentioned || contains_grok || role_mentioned

/-- The message-event fields consulted by `BotForgeBot.on_message`
(`src/discord_bot.py` lines 72-96); `self_mentioned` is
`self.user in message.mentions`. -/
structure BotEvent where
  author_is_bot : Bool
  self_mentioned : Bool
  content : PyStr
deriving DecidableEq, Repr

/-- The trigger-word loop shared by `BotForgeBot.on_message`
(`src/discord_bot.py` lines 87-95) and `MCPDiscordBot.should_respond`
(`src/mcp_discord_bot.py` lines 153-158): some configured word occurs,
case-insensitively, in the content. -/
def triggerWordHit (trigger_words : List PyStr) (content : PyStr) : Bool :=
  trigger_words.any fun t => pyContains (pyLower t) (pyLower content)

/-- The respond decision of `BotForgeBot.on_message` (`src/discord_bot.py`
lines 72-96): not from a bot, and directly mentioned or a trigger word
occurs.  There is no reply-to-bot clause in this variant. -/
def plainBotShouldRespond (trigger_words : List PyStr) (ev : BotEvent) : Bool :=
  if ev.author_is_bot then false
  else ev.self_mentioned || triggerWordHit trigger_words ev.content

/-- The message-event fields consulted by `MCPDiscordBot.should_respond`
(`src/mcp_discord_bot.py` lines 150-177) and its caller (lines 130-140).
`mention_is_bot` lists, for each entry of `message.mentions`, whether that
mentioned user is a bot; `referenced_author_is_bot` is `none` when the
message is no reply or the referenced message cannot be fetched. -/
structure McpEvent where
  author_is_bot : Bool
  mention_is_bot : List Bool
  content : PyStr
  referenced_author_is_bot : Option Bool
deriving DecidableEq, Repr

/-- Function `MCPDiscordBot.should_respond` (`src/mcp_discord_bot.py` lines 150-177):
a trigger word occurs, or some mentioned user is a bot, or the message
replies to a message authored by a bot. -/
def mcpShouldRespond (trigger_words : List PyStr) (ev : McpEvent) : Bool :=
  if triggerWordHit trigger_words ev.content then true
  else if ev.mention_is_bot.any (fun b => b) then true
  else
    match ev.referenced_author_is_bot with
    | some b => b
    | none => false

/-- The full respond decision of the MCP-bot message handler
(`src/mcp_discord_bot.py` lines 130-140): messages from any bot are dropped
before `should_respond` runs. -/
def mcpHandlerResponds (trigger_words : List PyStr) (ev : McpEvent) : Bool :=
  if ev.author_is_bot then false else mcpShouldRespond trigger_words ev

/-! ## General lemmas -/

variable {α : Type*}

lemma reverse_take_reverse (l : List α) (k : Nat) :
    (l.reverse.take k).reverse = l.drop (l.length - k) := by
  rw [List.take_reverse, List.reverse_reverse]

/-- Explicit concatenation of a list of strings. -/
def strConcat : List String → String
  | [] => ""
  | s :: rest => s ++ strConcat rest

lemma foldl_append_strConcat (f : α → String) :
    ∀ (l : List α) (init : String),
      l.foldl (fun acc x => acc ++ f x) init = init ++ strConcat (l.map f)
  | [], init => by simp [strConcat, String.append_empty]
  | x :: rest, init => by
    rw [List.foldl_cons, foldl_append_strConcat f rest]
    simp [strConcat, String.append_assoc]

/-! ## C2: the sliding-window truncation -/

/-- Claim C2: Whenever the assembled context exceeds the global ceiling of 25
messages, the truncation used by both the legacy and the combined assembler
keeps exactly the leading (system) message and the most recent 24 entries,
for an output of exactly 25 messages. -/
theorem context_truncation_ceiling (msgs : List CtxMsg)
    (h : 25 < msgs.length) :
    truncateContext msgs = msgs.take 1 ++ msgs.drop (msgs.length - 24) ∧
    (truncateContext msgs).length = 25 := by
  unfold truncateContext
  rw [if_pos h]
  refine ⟨rfl, ?_⟩
  rw [List.length_append, List.length_take, List.length_drop]
  omega

/-- Instance of `context_truncation_ceiling` at a system prompt followed by
30 history entries: the output length is exactly 25. -/
theorem context_truncation_ceiling_witness :
    25 < ((⟨"system", "s"⟩ : CtxMsg) :: List.replicate 30 (⟨"user", "h"⟩ : CtxMsg)).length ∧
    (truncateContext ((⟨"system", "s"⟩ : CtxMsg) ::
        List.replicate 30 (⟨"user", "h"⟩ : CtxMsg))).length = 25 :=
  ⟨by decide, (context_truncation_ceiling _ (by decide)).2⟩

/-! ## C3: the dedup guard -/

/-- A store holding two prior user messages `"u1"`, `"u2"` of user 7 in
channel `"ch"`. -/
def dedupDemoStore : List StoredRow :=
  [⟨some 1, 7, "ch", "u1", "user", none⟩, ⟨some 2, 7, "ch", "u2", "user", none⟩]

/-- An inbound message repeating the content of the newest stored message. -/
def dedupDemoMsg : InboundMsg := ⟨3, 7, "ch", "u2", "alice", none⟩

/-- Claim C3, counterexample: The combined-service assembler has no dedup
guard: with history `[u1, u2]` and a current message byte-identical to `u2`,
the current turn is appended anyway, so `u2` appears twice at the end of the
assembled context. -/
theorem combined_assembler_appends_duplicate :
    (processCombined "sys" dedupDemoStore dedupDemoMsg).context =
      [⟨"system", "sys"⟩, ⟨"user", "u1"⟩, ⟨"user", "u2"⟩, ⟨"user", "u2"⟩] := by
  decide

/-- Claim C3, amended: In the legacy assembler the dedup guard does hold: when
the newest history entry (the head of the newest-first row list) has content
byte-identical to the current message, the current turn is not appended and
the assembled context is just the truncated system-plus-history list. -/
theorem legacy_dedup_guard (sys current : String) (r : StoredRow)
    (history : List StoredRow) (hhead : history.head? = some r)
    (hc : r.content = current) :
    buildContextLegacy sys history current =
      truncateContext (⟨"system", sys⟩ :: historyToCtx history) := by
  obtain ⟨t, rfl⟩ : ∃ t, history = r :: t := by
    cases history with
    | nil => simp at hhead
    | cons a t =>
      simp only [List.head?_cons, Option.some.injEq] at hhead
      exact ⟨t, by rw [hhead]⟩
  have hlast : lastContentIs (⟨"system", sys⟩ :: historyToCtx (r :: t)) current
      = true := by
    unfold lastContentIs historyToCtx
    rw [List.reverse_cons, List.map_append]
    simp only [List.map_cons, List.map_nil]
    rw [← List.cons_append, List.getLast?_concat]
    simp [legacyFormatRow, hc]
  unfold buildContextLegacy appendCurrentLegacy
  rw [hlast]
  simp

/-- Instance of `legacy_dedup_guard` at history `[u1, u2]` (stored
newest-first) and current message `"u2"`. -/
theorem legacy_dedup_guard_witness :
    ([(⟨some 2, 7, "ch", "u2", "user", none⟩ : StoredRow),
        ⟨some 1, 7, "ch", "u1", "user", none⟩].head? =
      some (⟨some 2, 7, "ch", "u2", "user", none⟩ : StoredRow)) ∧
    buildContextLegacy "sys"
        [⟨some 2, 7, "ch", "u2", "user", none⟩,
         ⟨some 1, 7, "ch", "u1", "user", none⟩] "u2" =
      truncateContext (⟨"system", "sys"⟩ :: historyToCtx
        [⟨some 2, 7, "ch", "u2", "user", none⟩,
         ⟨some 1, 7, "ch", "u1", "user", none⟩]) :=
  ⟨rfl, legacy_dedup_guard "sys" "u2" _ _ rfl rfl⟩

/-! ## C4: history is fetched before the current message is persisted -/

/-- The inbound row of the history-leak counterexample. -/
def mcpDemoRow : DiscordMessageRow :=
  ⟨none, "c1", none, some "u9", "alice", "hi there", some "m1"⟩

/-- Claim C4, counterexample: `MCPDiscordBot.process_with_tools` stores the
inbound message *before* querying history: starting from an empty store, the
history used for the message's own context is exactly the formatted current
message, not the empty list. -/
theorem mcp_history_contains_current :
    (mcpProcessStoreAndFetch [] mcpDemoRow).1 = [mcpFormatRow mcpDemoRow] := by
  decide

/-- Claim C4, amended: In the legacy API server and the combined service the
invariant does hold: the history used to build a message's context is drawn
entirely from the pre-insert store, so when the inbound Discord message id
is new, no row of that history carries it. -/
theorem legacy_combined_history_precedes_store (sys : String)
    (store : List StoredRow) (msg : InboundMsg)
    (hfresh : ∀ r ∈ store, r.discord_message_id ≠ some msg.id) :
    (∀ r ∈ (processLegacy sys store msg).historyUsed,
        r ∈ store ∧ r.discord_message_id ≠ some msg.id) ∧
    (∀ r ∈ (processCombined sys store msg).historyUsed,
        r ∈ store ∧ r.discord_message_id ≠ some msg.id) := by
  have key : ∀ r ∈ get_conversation_history store msg.user_id msg.channel_id 15,
      r ∈ store ∧ r.discord_message_id ≠ some msg.id := by
    intro r hr
    have h1 : r ∈ store := by
      have h2 := List.mem_of_mem_take hr
      rw [List.mem_reverse] at h2
      exact List.mem_of_mem_filter h2
    exact ⟨h1, hfresh r h1⟩
  exact ⟨key, key⟩

/-- Instance of `legacy_combined_history_precedes_store` at a one-row store
and a fresh message id. -/
theorem legacy_combined_history_precedes_store_witness :
    (∀ r ∈ dedupDemoStore, r.discord_message_id ≠ some 9) ∧
    (∀ r ∈ (processLegacy "s" dedupDemoStore ⟨9, 7, "ch", "x", "alice", none⟩).historyUsed,
        r ∈ dedupDemoStore ∧ r.discord_message_id ≠ some 9) :=
  ⟨by decide,
   (legacy_combined_history_precedes_store "s" dedupDemoStore
     ⟨9, 7, "ch", "x", "alice", none⟩ (by decide)).1⟩

/-! ## C9: idempotence of message storage by Discord message id -/

/-- An inbound row for the `discord_messages` table. -/
def apiDemoRow : DiscordMessageRow :=
  ⟨none, "c2", none, some "u1", "bob", "hello", some "msg42"⟩

/-- Claim C9, counterexample: `DatabaseManager.store_message` (and the MCP
bot's `store_message`) issues a plain `INSERT` with no conflict clause, and
the repository declares no unique constraint on `discord_messages.message_id`:
replaying the identical inbound message id leaves two rows with that id. -/
theorem discord_messages_store_not_idempotent :
    ((insertDiscordMessage (insertDiscordMessage [] apiDemoRow) apiDemoRow).filter
        fun r => r.message_id = some "msg42").length = 2 := by
  decide

/-- Claim C9, amended: The legacy `messages` store is idempotent in the
Discord message id: thanks to `ON CONFLICT (discord_message_id) DO NOTHING`,
replaying the identical insert changes nothing, and exactly one row carries
the id. -/
theorem legacy_store_idempotent (store : List StoredRow) (mid uid : Nat)
    (content ch : String)
    (hfresh : ∀ r ∈ store, r.discord_message_id ≠ some mid) :
    store_user_message (store_user_message store mid uid content ch)
        mid uid content ch =
      store_user_message store mid uid content ch ∧
    ((store_user_message store mid uid content ch).filter
        fun r => r.discord_message_id = some mid).length = 1 := by
  have hany : store.any (fun r => r.discord_message_id = some mid) = false := by
    rw [List.any_eq_false]
    intro r hr
    simp [hfresh r hr]
  have hnil : store.filter (fun r => r.discord_message_id = some mid) = [] := by
    rw [List.filter_eq_nil_iff]
    intro r hr
    simp [hfresh r hr]
  unfold store_user_message
  rw [hany]
  simp only [Bool.false_eq_true, if_false, List.any_append, hany,
    Bool.false_or, List.filter_append, hnil, List.nil_append]
  constructor
  · rw [if_pos]
    simp
  · simp

/-- Instance of `legacy_store_idempotent` at the empty store. -/
theorem legacy_store_idempotent_witness :
    store_user_message (store_user_message [] 5 7 "hi" "ch") 5 7 "hi" "ch" =
      store_user_message [] 5 7 "hi" "ch" ∧
    ((store_user_message [] 5 7 "hi" "ch").filter
        fun r => r.discord_message_id = some 5).length = 1 :=
  legacy_store_idempotent [] 5 7 "hi" "ch" (by decide)

/-! ## C5: tool execution order and the follow-up request -/

lemma runToolCalls_loop (exec : String → List (String × String) → ToolPayload) :
    ∀ (calls : List ToolCall) (acc : List ToolResult),
      (∀ c ∈ calls, discordToolNames.contains c.tool = true) →
      calls.foldl
        (fun acc c =>
          if discordToolNames.contains c.tool then
            acc ++ [⟨c.tool, exec c.tool c.arguments⟩]
          else acc) acc
        = acc ++ calls.map fun c => ⟨c.tool, exec c.tool c.arguments⟩
  | [], acc, _ => by simp
  | c :: rest, acc, h => by
    rw [List.foldl_cons, if_pos (h c (List.mem_cons_self ..)),
      runToolCalls_loop exec rest _ fun x hx => h x (List.mem_cons_of_mem _ hx)]
    simp

lemma runToolCalls_eq_map (exec : String → List (String × String) → ToolPayload)
    (calls : List ToolCall)
    (hreg : ∀ c ∈ calls, discordToolNames.contains c.tool = true) :
    runToolCalls exec calls
      = calls.map fun c => ⟨c.tool, exec c.tool c.arguments⟩ := by
  unfold runToolCalls
  rw [runToolCalls_loop exec calls [] hreg]
  simp

/-- Claim C5: When every tool call requested by the model names a registered
Discord tool, the round-trip handler executes them all, in the model's list
order; the follow-up request carries exactly the resulting
`{tool_name, result}` pairs in that same order; the API server offers no
tool schemas on the follow-up round; and its serialization of the results
into the follow-up prompt also preserves that order. -/
theorem tool_roundtrip_order
    (exec : String → List (String × String) → ToolPayload)
    (dumps : ToolPayload → String) (calls : List ToolCall)
    (base : LLMRequest) (question : String)
    (hreg : ∀ c ∈ calls, discordToolNames.contains c.tool = true) :
    runToolCalls exec calls
        = calls.map (fun c => ⟨c.tool, exec c.tool c.arguments⟩) ∧
    (followUpRequest base question (runToolCalls exec calls)).tool_results
        = calls.map (fun c => ⟨c.tool, exec c.tool c.arguments⟩) ∧
    toolsOffered (followUpRequest base question (runToolCalls exec calls))
        = false ∧
    buildToolContext dumps (runToolCalls exec calls)
        = "Tool execution results:\n" ++
          strConcat ((runToolCalls exec calls).map
            fun tr => "- " ++ tr.tool_name ++ ": " ++ dumps tr.result ++ "\n") := by
  have h1 := runToolCalls_eq_map exec calls hreg
  refine ⟨h1, by rw [followUpRequest, h1], by simp [toolsOffered, followUpRequest], ?_⟩
  unfold buildToolContext
  rw [foldl_append_strConcat]

/-- A tool executor oracle that records the tool name in an error payload. -/
def demoExec : String → List (String × String) → ToolPayload :=
  fun n _ => .error n

/-- A serializer oracle. -/
def demoDumps : ToolPayload → String := fun _ => "{}"

/-- A base webhook payload advertising tools. -/
def demoBase : LLMRequest := ⟨"hello", [], false, true⟩

/-- Two registered tool calls, in the order returned by the model. -/
def demoCalls : List ToolCall :=
  [⟨"list_channels", []⟩, ⟨"get_server_info", []⟩]

/-- Instance of `tool_roundtrip_order` at two concrete tool calls. -/
theorem tool_roundtrip_order_witness :
    (∀ c ∈ demoCalls, discordToolNames.contains c.tool = true) ∧
    runToolCalls demoExec demoCalls
      = demoCalls.map (fun c => ⟨c.tool, demoExec c.tool c.arguments⟩) ∧
    toolsOffered (followUpRequest demoBase "q" (runToolCalls demoExec demoCalls))
      = false :=
  ⟨by decide,
   (tool_roundtrip_order demoExec demoDumps demoCalls demoBase "q" (by decide)).1,
   (tool_roundtrip_order demoExec demoDumps demoCalls demoBase "q"
     (by decide)).2.2.1⟩

/-! ## C8: fallback formatting when the follow-up call fails -/

/-- Claim C8: If the first LLM round requests at least one registered tool and
the follow-up round fails at the HTTP level, the handler's final answer is
exactly the manually formatted summary of the raw tool results, and exactly
two LLM requests were issued — no third round. -/
theorem followup_failure_uses_fallback
    (llm : LLMRequest → LLMOutcome)
    (exec : String → List (String × String) → ToolPayload)
    (base : LLMRequest) (question r : String) (calls : List ToolCall)
    (h1 : llm base = .ok r (some calls)) (h2 : calls ≠ [])
    (h3 : ∀ c ∈ calls, discordToolNames.contains c.tool = true)
    (h4 : llm (followUpRequest base question (runToolCalls exec calls))
        = .httpError) :
    processWithTools llm exec base question =
      some (format_tool_results_fallback (runToolCalls exec calls) question,
        [base, followUpRequest base question (runToolCalls exec calls)]) := by
  have hne : (runToolCalls exec calls).isEmpty = false := by
    rw [runToolCalls_eq_map exec calls h3]
    cases calls with
    | nil => exact absurd rfl h2
    | cons c rest => simp
  unfold processWithTools
  rw [h1]
  simp only [hne, Bool.false_eq_true, if_false, h4]

/-- An API-server oracle that answers the first round with two tool calls
and fails every follow-up round. -/
def demoLLM : LLMRequest → LLMOutcome := fun req =>
  if req.follow_up_request then .httpError else .ok "checking" (some demoCalls)

/-- Instance of `followup_failure_uses_fallback` at concrete oracles. -/
theorem followup_failure_uses_fallback_witness :
    demoLLM demoBase = .ok "checking" (some demoCalls) ∧
    processWithTools demoLLM demoExec demoBase "q" =
      some (format_tool_results_fallback (runToolCalls demoExec demoCalls) "q",
        [demoBase, followUpRequest demoBase "q" (runToolCalls demoExec demoCalls)]) :=
  ⟨rfl,
   followup_failure_uses_fallback demoLLM demoExec demoBase "q" "checking"
     demoCalls rfl (by decide) (by decide) rfl⟩

/-! ## C10: the two regimes of the fallback formatter -/

lemma formatSection_of_failure (tr : ToolResult)
    (h : tr.result.successFlag = false) : formatSection tr = "" := by
  obtain ⟨name, payload⟩ := tr
  cases payload <;>
    simp only [ToolPayload.successFlag] at h <;>
    (try subst h) <;>
    (unfold formatSection) <;>
    split_ifs <;> rfl

lemma formatSection_of_unknown (tr : ToolResult)
    (h : tr.tool_name ∉ discordToolNames) : formatSection tr = "" := by
  unfold formatSection
  split_ifs with h1 h2 h3 h4 h5
  · exact absurd (show tr.tool_name ∈ discordToolNames by rw [h1]; decide) h
  · exact absurd (show tr.tool_name ∈ discordToolNames by rw [h2]; decide) h
  · exact absurd (show tr.tool_name ∈ discordToolNames by rw [h3]; decide) h
  · exact absurd (show tr.tool_name ∈ discordToolNames by rw [h4]; decide) h
  · exact absurd (show tr.tool_name ∈ discordToolNames by rw [h5]; decide) h
  · rfl

/-- Claim C10: If no tool result carries a truthy `success`, the fallback
formatter returns exactly the generic failure sentence; as soon as one does,
it returns the `Here's what I found` preamble followed by the concatenated
per-tool sections in order, where unsuccessful or unrecognized results
contribute an empty section. -/
theorem fallback_formatter_cases (trs : List ToolResult) (question : String) :
    ((∀ tr ∈ trs, tr.result.successFlag = false) →
      format_tool_results_fallback trs question =
        "I encountered some issues retrieving the information you requested. Please try again later.") ∧
    ((∃ tr ∈ trs, tr.result.successFlag = true) →
      format_tool_results_fallback trs question =
        "Here's what I found regarding your question:\n\n" ++
          strConcat (trs.map formatSection) ∧
      (∀ tr ∈ trs, tr.result.successFlag = false → formatSection tr = "") ∧
      (∀ tr ∈ trs, tr.tool_name ∉ discordToolNames → formatSection tr = "")) := by
  constructor
  · intro hall
    have hany : trs.any (fun tr => tr.result.successFlag) = false := by
      rw [List.any_eq_false]
      intro tr htr
      simp [hall tr htr]
    unfold format_tool_results_fallback
    rw [hany]
    simp
  · intro hex
    have hany : trs.any (fun tr => tr.result.successFlag) = true := by
      rw [List.any_eq_true]
      obtain ⟨tr, htr, hs⟩ := hex
      exact ⟨tr, htr, hs⟩
    unfold format_tool_results_fallback
    rw [hany]
    refine ⟨?_, fun tr _ h => formatSection_of_failure tr h,
      fun tr _ h => formatSection_of_unknown tr h⟩
    simp only [if_true]
    exact foldl_append_strConcat formatSection trs _

/-- A result list where every tool failed. -/
def failedResults : List ToolResult := [⟨"get_server_info", .error "boom"⟩]

/-- A result list with one successful, recognized tool. -/
def okResults : List ToolResult :=
  [⟨"get_server_info", .serverInfo true ⟨"S", "1", 5, 3, "t0", "Owner"⟩⟩]

/-- Instance of `fallback_formatter_cases` in both regimes. -/
theorem fallback_formatter_cases_witness :
    (∀ tr ∈ failedResults, tr.result.successFlag = false) ∧
    format_tool_results_fallback failedResults "q" =
      "I encountered some issues retrieving the information you requested. Please try again later." ∧
    (∃ tr ∈ okResults, tr.result.successFlag = true) ∧
    format_tool_results_fallback okResults "q" =
      "Here's what I found regarding your question:\n\n" ++
        strConcat (okResults.map formatSection) :=
  ⟨by decide,
   (fallback_formatter_cases failedResults "q").1 (by decide),
   by decide,
   ((fallback_formatter_cases okResults "q").2 (by decide)).1⟩

/-! ## C6: response chunking -/

lemma pySplitNlNlAux_no_newline : ∀ (s acc : PyStr), '\n' ∉ s →
    pySplitNlNlAux s acc = [acc.reverse ++ s] := by
  intro s acc
  induction s, acc using pySplitNlNlAux.induct with
  | case1 acc => intro _; simp [pySplitNlNlAux]
  | case2 rest acc ih => intro h; exact absurd (List.mem_cons_self _ _) h
  | case3 c rest acc hne ih =>
    intro h
    have hr : '\n' ∉ rest := fun hh => h (List.mem_cons_of_mem _ hh)
    rw [pySplitNlNlAux]
    · rw [ih hr]
      simp
    · exact hne

lemma pySplitNlNlAux_append : ∀ (xs : PyStr) (ys acc : PyStr), '\n' ∉ xs →
    pySplitNlNlAux (xs ++ '\n' :: '\n' :: ys) acc
      = (acc.reverse ++ xs) :: pySplitNlNlAux ys []
  | [], ys, acc, _ => by
    rw [List.nil_append, pySplitNlNlAux]
    simp
  | c :: xs, ys, acc, h => by
    have hc : c ≠ '\n' := by
      rintro rfl
      exact h (List.mem_cons_self _ _)
    have hx : '\n' ∉ xs := fun hh => h (List.mem_cons_of_mem _ hh)
    rw [List.cons_append, pySplitNlNlAux]
    · rw [pySplitNlNlAux_append xs ys (c :: acc) hx]
      simp
    · intro r1 hcn _
      exact hc hcn

lemma pySplitNlNl_no_newline (s : PyStr) (h : '\n' ∉ s) :
    pySplitNlNl s = [s] := by
  unfold pySplitNlNl
  rw [pySplitNlNlAux_no_newline s [] h]
  simp

lemma pySplitNlNl_pair (xs ys : PyStr) (hx : '\n' ∉ xs) (hy : '\n' ∉ ys) :
    pySplitNlNl (xs ++ '\n' :: '\n' :: ys) = [xs, ys] := by
  unfold pySplitNlNl
  rw [pySplitNlNlAux_append xs ys [] hx, pySplitNlNlAux_no_newline ys [] hy]
  simp

lemma dropWhile_replicate (n : Nat) (c : Char) (hc : pyIsSpace c = false) :
    (List.replicate n c).dropWhile pyIsSpace = List.replicate n c := by
  cases n with
  | zero => rfl
  | succ m =>
    rw [List.replicate_succ, List.dropWhile_cons, hc]
    simp

lemma pyStrip_replicate (n : Nat) (c : Char) (hc : pyIsSpace c = false) :
    pyStrip (List.replicate n c) = List.replicate n c := by
  unfold pyStrip
  rw [dropWhile_replicate n c hc, List.reverse_replicate,
    dropWhile_replicate n c hc, List.reverse_replicate]

lemma pyStrip_replicate_nlnl (n : Nat) (c : Char) (hc : pyIsSpace c = false) :
    pyStrip (List.replicate n c ++ nlnl) = List.replicate n c := by
  cases n with
  | zero =>
    rw [List.replicate_zero, List.nil_append]
    decide
  | succ m =>
    unfold pyStrip
    rw [List.replicate_succ, List.cons_append, List.dropWhile_cons, hc]
    simp only [Bool.false_eq_true, if_false]
    rw [List.reverse_cons, List.reverse_append,
      show nlnl.reverse = '\n' :: '\n' :: [] from rfl,
      List.append_assoc, List.cons_append, List.cons_append, List.nil_append,
      List.dropWhile_cons, show pyIsSpace '\n' = true from rfl]
    simp only [if_true]
    rw [List.dropWhile_cons, show pyIsSpace '\n' = true from rfl]
    simp only [if_true]
    rw [List.reverse_replicate, ← List.replicate_succ' m c,
      dropWhile_replicate (m + 1) c hc, List.reverse_replicate,
      List.replicate_succ]

lemma replicate_isEmpty_false (n : Nat) (c : Char) (h : n ≠ 0) :
    (List.replicate n c).isEmpty = false := by
  cases n with
  | zero => exact absurd rfl h
  | succ m => rw [List.replicate_succ]; rfl

/-- A 2000-character single-paragraph reply. -/
def oversizedReply : PyStr := List.replicate 2000 'a'

/-- A 2002-character reply made of two 1000-character paragraphs. -/
def splitLossReply : PyStr :=
  List.replicate 1000 'a' ++ '\n' :: '\n' :: List.replicate 1000 'b'

/-- Claim C6, counterexample: The paragraph chunker of
`MCPDiscordBot.process_with_tools` violates the claim twice over: a
2000-character reply without paragraph breaks is sent as a single chunk of
2000 characters, above the 1900-character limit; and for a two-paragraph
reply the emitted chunks drop the `"\n\n"` separator, so their concatenation
(no continuation markers are even involved before sending) does not
reconstruct the original text. -/
theorem chunker_counterexample :
    mcpSendChunks oversizedReply = [oversizedReply] ∧
    1900 < oversizedReply.length ∧
    mcpChunks splitLossReply
      = [List.replicate 1000 'a', List.replicate 1000 'b'] ∧
    (mcpChunks splitLossReply).flatten ≠ splitLossReply ∧
    1900 < splitLossReply.length := by
  have hnl1 : '\n' ∉ oversizedReply := by
    intro h
    exact absurd (List.mem_replicate.mp h).2 (by decide)
  have hlen1 : oversizedReply.length = 2000 := by
    unfold oversizedReply
    rw [List.length_replicate]
  have hsplit1 : pySplitNlNl oversizedReply = [oversizedReply] :=
    pySplitNlNl_no_newline _ hnl1
  have hadd1 : addParagraph ([], []) oversizedReply
      = ([], oversizedReply ++ nlnl) := by
    unfold addParagraph
    dsimp only
    simp only [List.nil_append]
    rw [if_pos (by rw [hlen1]; omega)]
    rfl
  have hstrip1 : pyStrip (oversizedReply ++ nlnl) = oversizedReply :=
    pyStrip_replicate_nlnl 2000 'a' (by decide)
  have hnemp1 : oversizedReply.isEmpty = false :=
    replicate_isEmpty_false 2000 'a' (by omega)
  have hchunks1 : mcpChunks oversizedReply = [oversizedReply] := by
    unfold mcpChunks buildChunks
    rw [hsplit1, List.foldl_cons, hadd1, List.foldl_nil]
    dsimp only
    rw [hstrip1, if_neg (by simp [hnemp1]), List.nil_append]
  have hsend : mcpSendChunks oversizedReply = [oversizedReply] := by
    unfold mcpSendChunks
    rw [if_pos (by rw [hlen1]; omega), hchunks1,
      show ([oversizedReply].enum) = [(0, oversizedReply)] from rfl,
      List.map_cons, List.map_nil]
    dsimp only
    rw [if_neg (Nat.lt_irrefl 0), List.filter_cons,
      show pyStrip oversizedReply = oversizedReply from
        pyStrip_replicate 2000 'a' (by decide),
      hnemp1]
    rfl
  have hlen2 : splitLossReply.length = 2002 := by
    unfold splitLossReply
    rw [List.length_append, List.length_replicate, List.length_cons,
      List.length_cons, List.length_replicate]
  have hsplit2 : pySplitNlNl splitLossReply
      = [List.replicate 1000 'a', List.replicate 1000 'b'] := by
    unfold splitLossReply
    exact pySplitNlNl_pair _ _
      (fun h => absurd (List.mem_replicate.mp h).2 (by decide))
      (fun h => absurd (List.mem_replicate.mp h).2 (by decide))
  have hadd2 : addParagraph ([], []) (List.replicate 1000 'a')
      = ([], List.replicate 1000 'a' ++ nlnl) := by
    unfold addParagraph
    dsimp only
    simp only [List.nil_append]
    rw [if_neg (by rw [List.length_replicate]; omega)]
  have hc1 : 1800 < ((List.replicate 1000 'a' ++ nlnl) ++
      List.replicate 1000 'b').length := by
    rw [List.length_append, List.length_append, List.length_replicate,
      List.length_replicate, show nlnl.length = 2 from rfl]
    omega
  have hc2 : (List.replicate 1000 'a' ++ nlnl).isEmpty = false := by
    rw [show (1000 : Nat) = 999 + 1 from rfl, List.replicate_succ,
      List.cons_append]
    rfl
  have hadd3 : addParagraph ([], List.replicate 1000 'a' ++ nlnl)
        (List.replicate 1000 'b')
      = ([List.replicate 1000 'a'],
         [] ++ List.replicate 1000 'b' ++ nlnl) := by
    unfold addParagraph
    dsimp only
    rw [if_pos hc1, if_neg (by rw [hc2]; decide),
      pyStrip_replicate_nlnl 1000 'a' (by decide), List.nil_append]
  have hchunks2 : mcpChunks splitLossReply
      = [List.replicate 1000 'a', List.replicate 1000 'b'] := by
    unfold mcpChunks buildChunks
    rw [hsplit2, List.foldl_cons, hadd2, List.foldl_cons, hadd3,
      List.foldl_nil]
    dsimp only
    have hb : (List.replicate 1000 'b').isEmpty = false :=
      replicate_isEmpty_false 1000 'b' (by omega)
    rw [List.nil_append, pyStrip_replicate_nlnl 1000 'b' (by decide),
      if_neg (by rw [hb]; decide)]
    rfl
  refine ⟨hsend, by rw [hlen1]; omega, hchunks2, ?_, by rw [hlen2]; omega⟩
  intro h
  have hlen := congrArg List.length h
  rw [hchunks2, hlen2, List.flatten_cons, List.flatten_cons,
    List.flatten_nil, List.append_nil, List.length_append,
    List.length_replicate, List.length_replicate] at hlen
  omega

lemma pyStrip_length_le (l : PyStr) : (pyStrip l).length ≤ l.length := by
  unfold pyStrip
  have h1 : ((l.dropWhile pyIsSpace).reverse.dropWhile pyIsSpace).length
      ≤ (l.dropWhile pyIsSpace).reverse.length :=
    (List.dropWhile_sublist ..).length_le
  have h2 : (l.dropWhile pyIsSpace).length ≤ l.length :=
    (List.dropWhile_sublist ..).length_le
  simp only [List.length_reverse] at *
  omega

lemma addParagraph_bound (st : List PyStr × PyStr) (p : PyStr)
    (h1 : ∀ c ∈ st.1, c.length ≤ 1802) (h2 : st.2.length ≤ 1802)
    (hp : p.length ≤ 1800) :
    (∀ c ∈ (addParagraph st p).1, c.length ≤ 1802) ∧
    (addParagraph st p).2.length ≤ 1802 := by
  unfold addParagraph
  by_cases hover : 1800 < (st.2 ++ p).length
  · rw [if_pos hover]
    by_cases hemp : st.2.isEmpty
    · exfalso
      have : st.2 = [] := List.isEmpty_iff.mp hemp
      rw [this] at hover
      simp at hover
      omega
    · rw [if_neg hemp]
      refine ⟨?_, by simp [nlnl]; omega⟩
      intro c hc
      rcases List.mem_append.mp hc with h | h
      · exact h1 c h
      · simp only [List.mem_singleton] at h
        subst h
        exact le_trans (pyStrip_length_le st.2) h2
  · rw [if_neg hover]
    refine ⟨h1, ?_⟩
    simp only [List.length_append, nlnl, List.length_cons, List.length_nil]
      at *
    omega

lemma foldl_addParagraph_bound :
    ∀ (paras : List PyStr) (st : List PyStr × PyStr),
      (∀ p ∈ paras, p.length ≤ 1800) →
      (∀ c ∈ st.1, c.length ≤ 1802) → st.2.length ≤ 1802 →
      (∀ c ∈ (paras.foldl addParagraph st).1, c.length ≤ 1802) ∧
      (paras.foldl addParagraph st).2.length ≤ 1802
  | [], _, _, h1, h2 => ⟨h1, h2⟩
  | p :: rest, st, hp, h1, h2 => by
    rw [List.foldl_cons]
    have hb := addParagraph_bound st p h1 h2 (hp p (List.mem_cons_self ..))
    exact foldl_addParagraph_bound rest _
      (fun q hq => hp q (List.mem_cons_of_mem _ hq)) hb.1 hb.2

/-- Claim C6, amended: The two dispatcher variants each satisfy part of the
claim.  The paragraph variant (`discord_bot_with_mcp.py`): when every
paragraph of the reply is at most 1800 characters, every chunk it builds is
at most 1802 characters — below the 1900 limit even after the continuation
marker — but a longer paragraph is emitted whole as an oversized chunk, and
plain concatenation of the chunks does not reconstruct the text (separators
at chunk boundaries are stripped).  The fixed-slice variant
(`discord_bot.py`): every slice is at most 1900 characters and their
concatenation reconstructs the original exactly, but the boundaries are
fixed offsets, not paragraph breaks. -/
theorem chunker_amended :
    (∀ paras : List PyStr, (∀ p ∈ paras, p.length ≤ 1800) →
      ∀ c ∈ buildChunks paras, c.length ≤ 1802) ∧
    (∀ text : PyStr, (sliceChunks text).flatten = text ∧
      ∀ c ∈ sliceChunks text, c.length ≤ 1900) := by
  constructor
  · intro paras hp c hc
    unfold buildChunks at hc
    have hb := foldl_addParagraph_bound paras ([], []) hp (by simp) (by simp)
    by_cases h : (pyStrip (paras.foldl addParagraph ([], [])).2).isEmpty
    · rw [if_pos h] at hc
      exact hb.1 c hc
    · rw [if_neg h] at hc
      rcases List.mem_append.mp hc with h' | h'
      · exact hb.1 c h'
      · simp only [List.mem_singleton] at h'
        subst h'
        exact le_trans (pyStrip_length_le _) hb.2
  · intro text
    have key : ∀ (fuel : Nat) (s : PyStr), s.length ≤ fuel →
        (sliceChunksAux fuel s).flatten = s ∧
        ∀ c ∈ sliceChunksAux fuel s, c.length ≤ 1900 := by
      intro fuel
      induction fuel with
      | zero =>
        intro s hs
        have : s = [] := List.eq_nil_of_length_eq_zero (Nat.le_zero.mp hs)
        subst this
        exact ⟨rfl, by simp [sliceChunksAux]⟩
      | succ n ih =>
        intro s hs
        cases s with
        | nil => exact ⟨rfl, by simp [sliceChunksAux]⟩
        | cons a t =>
          rw [sliceChunksAux]
          · have hdrop : ((a :: t).drop 1900).length ≤ n := by
              rw [List.length_drop]
              simp only [List.length_cons] at hs ⊢
              omega
            obtain ⟨hj, hb⟩ := ih _ hdrop
            constructor
            · rw [List.flatten_cons, hj]
              exact List.take_append_drop _ _
            · intro c hc
              rcases List.mem_cons.mp hc with h | h
              · subst h
                rw [List.length_take]
                omega
              · exact hb c h
          · simp
    exact key (text.length) text (le_refl _)

/-- Instance of `chunker_amended` at a short paragraph list and a short
text. -/
theorem chunker_amended_witness :
    (∀ p ∈ [(['h', 'i'] : PyStr)], p.length ≤ 1800) ∧
    (∀ c ∈ buildChunks [(['h', 'i'] : PyStr)], c.length ≤ 1802) ∧
    (sliceChunks ['h', 'i']).flatten = ['h', 'i'] :=
  ⟨by decide, chunker_amended.1 [['h', 'i']] (by decide),
   (chunker_amended.2 ['h', 'i']).1⟩

/-! ## C7: the message trigger filter -/

lemma pyContains_iff (needle : PyStr) : ∀ hay : PyStr,
    pyContains needle hay = true ↔ needle <:+: hay := by
  intro hay
  induction hay with
  | nil =>
    show needle.isEmpty = true ↔ needle <:+: []
    rw [List.infix_nil, List.isEmpty_iff]
  | cons c rest ih =>
    show (needle.isPrefixOf (c :: rest) || pyContains needle rest) = true ↔
      needle <:+: c :: rest
    rw [List.infix_cons_iff, Bool.or_eq_true, List.isPrefixOf_iff_prefix, ih]

/-- A message event carrying only a role mention: not from the bot, no user
mentions, no `grok` substring, no reply reference. -/
def roleMentionEvent : CombinedEvent := ⟨1, 2, [], "<@&5>".toList, [], false⟩

/-- Claim C7, counterexample: The combined service responds to a bare role
mention even though the bot is not mentioned, no trigger word occurs in the
content, and the message is not a reply: the trigger decision is not the
claimed three-way disjunction. -/
theorem trigger_counterexample :
    combinedShouldRespond roleMentionEvent = true ∧
    roleMentionEvent.mention_ids.contains roleMentionEvent.self_id = false ∧
    pyContains "grok".toList (pyLower roleMentionEvent.content) = false ∧
    roleMentionEvent.has_reference = false := by
  decide

/-- Claim C7, amended: Each variant's trigger decision is a pure predicate of
the event and configuration, but the disjunctions differ: the combined
service tests for self-authorship, a self-mention, the hard-coded word
`grok` and additionally any role mention; the plain bot drops messages from
any bot and has no reply clause; the MCP bot drops messages from any bot and
fires on a mention of any bot or a reply to any bot-authored message. -/
theorem trigger_predicates_characterized (tw : List PyStr)
    (ev1 : CombinedEvent) (ev2 : BotEvent) (ev3 : McpEvent) :
    (combinedShouldRespond ev1 = true ↔
      ev1.author_id ≠ ev1.self_id ∧
      (ev1.self_id ∈ ev1.mention_ids ∨
       "grok".toList <:+: pyLower ev1.content ∨
       (ev1.role_mention_ids ≠ [] ∨ "<@&".toList <:+: ev1.content))) ∧
    (plainBotShouldRespond tw ev2 = true ↔
      ev2.author_is_bot = false ∧
      (ev2.self_mentioned = true ∨
       ∃ t ∈ tw, pyLower t <:+: pyLower ev2.content)) ∧
    (mcpHandlerResponds tw ev3 = true ↔
      ev3.author_is_bot = false ∧
      ((∃ t ∈ tw, pyLower t <:+: pyLower ev3.content) ∨
       true ∈ ev3.mention_is_bot ∨
       ev3.referenced_author_is_bot = some true)) := by
  refine ⟨?_, ?_, ?_⟩
  · unfold combinedShouldRespond
    by_cases h : ev1.author_id = ev1.self_id
    · simp [h]
    · rw [if_neg h]
      simp only [Bool.or_eq_true, List.any_eq_true, decide_eq_true_eq,
        pyContains_iff, Bool.not_eq_true', List.isEmpty_eq_false,
        ne_eq, h, not_false_iff, true_and]
      constructor
      · rintro ((⟨i, hi, rfl⟩ | hg) | (hr | hr))
        · exact Or.inl hi
        · exact Or.inr (Or.inl hg)
        · exact Or.inr (Or.inr (Or.inl hr))
        · exact Or.inr (Or.inr (Or.inr hr))
      · rintro (hi | hg | hr | hr)
        · exact Or.inl (Or.inl ⟨_, hi, rfl⟩)
        · exact Or.inl (Or.inr hg)
        · exact Or.inr (Or.inl hr)
        · exact Or.inr (Or.inr hr)
  · unfold plainBotShouldRespond triggerWordHit
    by_cases h : ev2.author_is_bot = true
    · simp [h]
    · rw [if_neg h]
      simp only [Bool.or_eq_true, List.any_eq_true, pyContains_iff,
        Bool.not_eq_true] at h ⊢
      simp [h]
  · unfold mcpHandlerResponds mcpShouldRespond triggerWordHit
    by_cases h : ev3.author_is_bot = true
    · simp [h]
    · rw [if_neg h]
      simp only [Bool.not_eq_true] at h
      simp only [h, true_and]
      by_cases h1 : ev3.mention_is_bot.any (fun b => b) = true
      · have hm : true ∈ ev3.mention_is_bot := by
          obtain ⟨b, hb, hb'⟩ := List.any_eq_true.mp h1
          rwa [show b = true from hb'] at hb
        split_ifs with ht <;>
          simp [h1, hm, List.any_eq_true, pyContains_iff]
      · have hm : true ∉ ev3.mention_is_bot := fun hmem =>
          absurd (List.any_eq_true.mpr ⟨true, hmem, rfl⟩) h1
        by_cases ht : tw.any
            (fun t => pyContains (pyLower t) (pyLower ev3.content)) = true
        · rw [if_pos ht]
          simp only [List.any_eq_true, pyContains_iff] at ht
          simp [ht]
        · rw [if_neg ht, if_neg h1]
          simp only [List.any_eq_true, pyContains_iff] at ht
          cases href : ev3.referenced_author_is_bot with
          | none => simp [ht, hm]
          | some b =>
            cases b with
            | false => simp [ht, hm]
            | true => simp [ht]

/-- Instance of `trigger_predicates_characterized` at a concrete event. -/
theorem trigger_predicates_characterized_witness :
    plainBotShouldRespond ["grok".toList] ⟨false, false, "ask GROK now".toList⟩
        = true ↔
      (false = false ∧
        (false = true ∨ ∃ t ∈ [("grok".toList : PyStr)],
          pyLower t <:+: pyLower "ask GROK now".toList)) :=
  (trigger_predicates_characterized ["grok".toList] roleMentionEvent
    ⟨false, false, "ask GROK now".toList⟩
    ⟨false, [], [], none⟩).2.1

/-! ## C1: the assembled context window -/

lemma appendTruncate_structure (sys current : String) (w : List CtxMsg)
    (hlen : w.length + 2 ≤ 25) :
    ∃ tailEnd,
      truncateContext (appendCurrentLegacy (⟨"system", sys⟩ :: w) current)
          = ⟨"system", sys⟩ :: (w ++ tailEnd) ∧
      tailEnd.length ≤ 1 ∧
      (lastContentIs (⟨"system", sys⟩ :: w) current = true → tailEnd = []) ∧
      (lastContentIs (⟨"system", sys⟩ :: w) current = false →
        tailEnd = [⟨"user", current⟩]) := by
  unfold appendCurrentLegacy
  cases hl : lastContentIs (⟨"system", sys⟩ :: w) current with
  | false =>
    rw [if_pos (by simp)]
    refine ⟨[⟨"user", current⟩], ?_, by simp, ?_, fun _ => rfl⟩
    · unfold truncateContext
      rw [if_neg (by simp only [List.length_append, List.length_cons,
          List.length_nil]; omega), List.cons_append]
    · intro hcontr
      simp at hcontr
  | true =>
    rw [if_neg (by simp)]
    refine ⟨[], ?_, by simp, fun _ => rfl, ?_⟩
    · unfold truncateContext
      rw [if_neg (by simp only [List.length_cons]; omega), List.append_nil]
    · intro hcontr
      simp at hcontr

/-- Claim C1: For any store, (user, channel) pair, fetch limit and current
message, provided the window fits under the 25-message ceiling
(`limit + 2 ≤ 25`; the legacy call site uses `limit = 15`), the assembled
legacy context is the system message, followed by exactly
`min N limit` prior messages of the pair — the most recent ones, kept in
chronological order — and then a tail holding the current user turn: the
current turn is appended at most once, and exactly once unless the dedup
guard of C3 fires because the preceding entry already carries its
content. -/
theorem legacy_context_window (sys current : String) (store : List StoredRow)
    (u : Nat) (ch : String) (limit : Nat) (hlim : limit + 2 ≤ 25) :
    historyToCtx (get_conversation_history store u ch limit)
        = ((pairPriors store u ch).drop
            ((pairPriors store u ch).length - limit)).map legacyFormatRow ∧
    (historyToCtx (get_conversation_history store u ch limit)).length
        = min (pairPriors store u ch).length limit ∧
    ∃ tailEnd,
      buildContextLegacy sys (get_conversation_history store u ch limit)
          current
          = ⟨"system", sys⟩ ::
              (historyToCtx (get_conversation_history store u ch limit)
                ++ tailEnd) ∧
      tailEnd.length ≤ 1 ∧
      (lastContentIs (⟨"system", sys⟩ ::
          historyToCtx (get_conversation_history store u ch limit)) current
            = true → tailEnd = []) ∧
      (lastContentIs (⟨"system", sys⟩ ::
          historyToCtx (get_conversation_history store u ch limit)) current
            = false → tailEnd = [⟨"user", current⟩]) := by
  refine ⟨?_, ?_, ?_⟩
  · unfold historyToCtx get_conversation_history
    rw [reverse_take_reverse]
  · unfold historyToCtx get_conversation_history
    rw [List.length_map, List.length_reverse, List.length_take,
      List.length_reverse, Nat.min_comm]
  · have hwlen :
        (historyToCtx (get_conversation_history store u ch limit)).length + 2
          ≤ 25 := by
      unfold historyToCtx get_conversation_history
      rw [List.length_map, List.length_reverse, List.length_take]
      have hmin := Nat.min_le_left limit (pairPriors store u ch).reverse.length
      omega
    exact appendTruncate_structure sys current _ hwlen

/-- Instance of `legacy_context_window` at a two-row store, limit 15 and a
fresh current message. -/
theorem legacy_context_window_witness :
    15 + 2 ≤ 25 ∧
    historyToCtx (get_conversation_history dedupDemoStore 7 "ch" 15)
        = ((pairPriors dedupDemoStore 7 "ch").drop
            ((pairPriors dedupDemoStore 7 "ch").length - 15)).map
              legacyFormatRow ∧
    (∃ tailEnd,
      buildContextLegacy "s" (get_conversation_history dedupDemoStore 7 "ch" 15)
          "x"
          = ⟨"system", "s"⟩ ::
              (historyToCtx (get_conversation_history dedupDemoStore 7 "ch" 15)
                ++ tailEnd) ∧
      tailEnd.length ≤ 1 ∧
      (lastContentIs (⟨"system", "s"⟩ ::
          historyToCtx (get_conversation_history dedupDemoStore 7 "ch" 15)) "x"
            = true → tailEnd = []) ∧
      (lastContentIs (⟨"system", "s"⟩ ::
          historyToCtx (get_conversation_history dedupDemoStore 7 "ch" 15)) "x"
            = false → tailEnd = [⟨"user", "x"⟩])) :=
  ⟨by decide,
   (legacy_context_window "s" "x" dedupDemoStore 7 "ch" 15 (by decide)).1,
   (legacy_context_window "s" "x" dedupDemoStore 7 "ch" 15 (by decide)).2.2⟩

end SuperAgent
